import Mathlib

/-!
# Verification of the madness `Cloud` store/load layer

Shallow embedding of `src/madness/world/cloud.h` (class `Cloud` and its nested
`Recordlist`) together with the relative-function-pointer codec of
`src/madness/world/archive.h`.

Modelling conventions:

* One MPI rank's view of the cloud is modelled: `CloudState` holds the
  distributed container, the per-world read cache (`cached_objects`), the
  process-local key ledger (`local_list_of_container_keys`), the two cache
  counters and the `force_load_from_cache` mode bit, plus the rank number
  (used only for the rank-0 counter guards).  World fences and the wall-clock
  timers (`storetimer`/`loadtimer`) have no effect on this state and are not
  modelled.
* The storable types are the members of `Cloud::cached_objT`
  (`std::size_t`, `int`, `long`, `double`, `std::vector<double>`,
  `Tensor<double>`, `Function<double,3>`, `std::vector<Function<double,3>>`,
  `std::shared_ptr<FunctionImpl<double,3>>` and vectors thereof), plus flat
  `std::tuple`s of those, mirroring the instantiations exercised by
  `test_cloud.cc`.  A C++ `double` is represented by its bit pattern, a `Nat`
  code; distributed-object handles are represented by their globally unique
  identifier.
* Modelled from the spec: the byte-level serializer
  (`ParallelOutputArchive`/`ParallelInputArchive`, `parallel_dc_archive.h` is
  not part of the sources) encodes one value per record and rebuilds it
  exactly, failing hard on a type mismatch ("blob header mismatch", spec §7);
  a fetch of an unknown record fails hard ("no such record", spec §7).  The
  blob stored for a value is therefore the value itself and deserialization
  checks the requested type.
* Modelled from the spec: the hash functions `hash_value`/`hash_range`
  (`worldhash.h` is not part of the sources) are collision-free on each
  argument type ("hash collision on distinct values is treated as impossible
  by contract", spec §4.6); they are embedded as injective encodings into
  `Nat`, one tag per C++ overload.  `Cloud::compute_record` applies
  `hash_value` to a `double` both for a plain `double` (its bit pattern) and
  for `Tensor<double>` (via `normf()`), so those two uses share one encoding,
  exactly as in the source.
-/

/-- Container/record key, `Cloud::keyT` (an unsigned hash integer). -/
abbrev keyT := Nat

/-- Model of `Tensor<double>`: its element content.  `normf()` (the Frobenius
norm, a `double`) is represented by the sum of squared elements, a lossy
content summary exactly as in the source: distinct tensors can share a norm. -/
structure MTensor where
  elems : List Int
deriving DecidableEq, Repr

/-- The content summary used by `compute_record` for tensors: the code of the
`double` returned by `Tensor::normf()`. -/
def MTensor.normf (t : MTensor) : Nat :=
  (t.elems.map (fun x => (x * x).toNat)).sum

/-- Model of `Function<double,3>`: a distributed-object handle with the
globally unique id of its `FunctionImpl` (`get_impl()->id()`) and its
mathematical content (the coefficient tree), abstracted as an integer. -/
structure MFunction where
  id : Nat
  content : Int
deriving DecidableEq, Repr

/-- The storable leaf values: the alternatives of `Cloud::cached_objT`. -/
inductive CVal where
  | vsize (n : Nat)
  | vint (i : Int)
  | vlong (i : Int)
  | vdouble (bits : Nat)
  | vvecd (xs : List Nat)
  | vtensor (t : MTensor)
  | vfunc (f : MFunction)
  | vfuncvec (fs : List MFunction)
  | vimplptr (id : Nat)
  | vimplptrvec (ids : List Nat)
deriving DecidableEq, Repr

/-- The leaf types, used to index `load<T>` at leaf positions. -/
inductive LType where
  | sizeT | intT | longT | doubleT | vecDoubleT | tensorT
  | funcT | funcVecT | implPtrT | implPtrVecT
deriving DecidableEq, Repr

/-- The C++ static type of a leaf value. -/
def typeOfL : CVal → LType
  | .vsize _ => .sizeT
  | .vint _ => .intT
  | .vlong _ => .longT
  | .vdouble _ => .doubleT
  | .vvecd _ => .vecDoubleT
  | .vtensor _ => .tensorT
  | .vfunc _ => .funcT
  | .vfuncvec _ => .funcVecT
  | .vimplptr _ => .implPtrT
  | .vimplptrvec _ => .implPtrVecT

/-- A storable value: a leaf or a flat `std::tuple` of leaves. -/
inductive CompVal where
  | leaf (v : CVal)
  | tup (vs : List CVal)
deriving DecidableEq, Repr

/-- A storable type: a leaf type or a flat tuple type. -/
inductive CompType where
  | leafT (t : LType)
  | tupT (ts : List LType)
deriving DecidableEq, Repr

/-- The C++ static type of a storable value. -/
def typeOfC : CompVal → CompType
  | .leaf v => .leafT (typeOfL v)
  | .tup vs => .tupT (vs.map typeOfL)

/-- Injective code of a C++ integer value (two's complement bit pattern). -/
def encInt (i : Int) : Nat :=
  if 0 ≤ i then 2 * i.toNat else 2 * (-i).toNat - 1

/-- Injective code of a list of `Nat` codes. -/
def encList : List Nat → Nat
  | [] => 0
  | x :: xs => Nat.pair x (encList xs) + 1

/-- Modelled from the spec: `hash_value(std::size_t)` (`worldhash.h` is not in
the sources), embedded as an injective encoding, tag 0. -/
def hash_value_size (n : Nat) : keyT := Nat.pair 0 n

/-- Modelled from the spec: `hash_value(int)`, tag 1. -/
def hash_value_int (i : Int) : keyT := Nat.pair 1 (encInt i)

/-- Modelled from the spec: `hash_value(long)`, tag 2. -/
def hash_value_long (i : Int) : keyT := Nat.pair 2 (encInt i)

/-- Modelled from the spec: `hash_value(double)` on the double's bit pattern,
tag 3.  Used both for plain `double` leaves and for `Tensor::normf()`. -/
def hash_value_double (d : Nat) : keyT := Nat.pair 3 d

/-- Modelled from the spec: the object-identity hash
`hash_value(uniqueidT)`, tag 4. -/
def hash_value_id (i : Nat) : keyT := Nat.pair 4 i

/-- Modelled from the spec: `hash_range` over a `std::vector<double>`, tag 5. -/
def hash_range_doubles (xs : List Nat) : keyT := Nat.pair 5 (encList xs)

/-- Modelled from the spec: `hash_range` over a vector of `FunctionImpl`
pointers, tag 6. -/
def hash_range_ids (xs : List Nat) : keyT := Nat.pair 6 (encList xs)

/-- Modelled from the spec: `hash_range` over a `std::vector<Function>`,
tag 7 (this branch of `compute_record` is unreachable from `store`, which
dispatches function vectors to the overloaded `store_other`). -/
def hash_range_funcs (fs : List MFunction) : keyT :=
  Nat.pair 7 (encList (fs.map fun f => Nat.pair f.id (encInt f.content)))

/-- `Cloud::compute_record`: the content-derived record of a leaf value,
following the `if constexpr` cascade of cloud.h lines 288-314. -/
def compute_record : CVal → keyT
  | .vfunc f => hash_value_id f.id
  | .vtensor t => hash_value_double t.normf
  | .vimplptr i => hash_value_id i
  | .vimplptrvec ids => hash_range_ids ids
  | .vvecd xs => hash_range_doubles xs
  | .vfuncvec fs => hash_range_funcs fs
  | .vsize n => hash_value_size n
  | .vint i => hash_value_int i
  | .vlong i => hash_value_long i
  | .vdouble d => hash_value_double d

/-- `Recordlist<keyT>`: an ordered list of records. -/
abbrev recordlistT := List keyT

/-- `Recordlist::pop_front_and_return`, totalized: the source reads
`list.front()` with no emptiness guard, so the empty case returns `none`. -/
def pop_front_and_return : recordlistT → Option (keyT × recordlistT)
  | [] => none
  | r :: rest => some (r, rest)

/-- Lookup in an association list (the model of `std::map` lookup and of
`WorldContainer` fetch). -/
def lookupR {α : Type} : List (keyT × α) → keyT → Option α
  | [], _ => none
  | (k', v) :: rest, k => if k' = k then some v else lookupR rest k

/-- Overwriting insert into an association list (the model of
`std::map::operator[]` assignment and of a container blob write; lookups see
the most recent binding). -/
def insertR {α : Type} (xs : List (keyT × α)) (k : keyT) (v : α) : List (keyT × α) :=
  (k, v) :: xs

/-- One rank's view of the `Cloud` state: the distributed container, the
cache, the key ledger, the two cache counters, the rank and the
`force_load_from_cache` mode bit. -/
structure CloudState where
  container : List (keyT × CVal)
  cached_objects : List (keyT × CVal)
  local_list_of_container_keys : List keyT
  cache_stores : Nat
  cache_reads : Nat
  rank : Nat
  force_load_from_cache : Bool
deriving DecidableEq, Repr

/-- A fresh cloud on a given rank: empty container, cache and ledger, zeroed
counters, `force_load_from_cache` off (the constructor defaults). -/
def initState : CloudState :=
  { container := [], cached_objects := [], local_list_of_container_keys := []
  , cache_stores := 0, cache_reads := 0, rank := 0, force_load_from_cache := false }

/-- `Cloud::is_cached`: `cached_objects.count(key) == 1`. -/
def is_cached (s : CloudState) (k : keyT) : Bool :=
  (lookupR s.cached_objects k).isSome

/-- `Cloud::is_in_container`: `std::find` over the process-local ledger. -/
def is_in_container (s : CloudState) (k : keyT) : Prop :=
  k ∈ s.local_list_of_container_keys

instance (s : CloudState) (k : keyT) : Decidable (is_in_container s k) := by
  unfold is_in_container; infer_instance

/-- The rank-0-only increment of the `cache_stores` counter
(`if (world.rank()==0) cache_stores++`). -/
def bumpStores (s : CloudState) : CloudState :=
  if s.rank = 0 then { s with cache_stores := s.cache_stores + 1 } else s

/-- The rank-0-only increment of the `cache_reads` counter
(`if (world.rank()==0) cache_reads++`). -/
def bumpReads (s : CloudState) : CloudState :=
  if s.rank = 0 then { s with cache_reads := s.cache_reads + 1 } else s

/-- The effect of the un-elided write branch of `store_other`: serialize the
blob into the container at `r` and append `r` to the ledger. -/
def writeBlob (s : CloudState) (r : keyT) (v : CVal) : CloudState :=
  { s with container := insertR s.container r v
         , local_list_of_container_keys := s.local_list_of_container_keys ++ [r] }

/-- `Cloud::store_other` (generic leaf overload, cloud.h lines 363-383):
compute the record; if it is already in the process-local ledger, elide the
write and count a skipped store on rank 0, else write the blob and append the
record to the ledger.  Always returns the one-record list. -/
def store_other (s : CloudState) (v : CVal) : recordlistT × CloudState :=
  if is_in_container s (compute_record v) then ([compute_record v], bumpStores s)
  else ([compute_record v], writeBlob s (compute_record v) v)

/-- The element loop of the `std::vector<Function>` overload of `store_other`
(`for (auto s : source) l += store_other(world, s);`). -/
def storeElems : CloudState → List MFunction → recordlistT × CloudState
  | s, [] => ([], s)
  | s, f :: fs =>
    let p := store_other s (.vfunc f)
    let q := storeElems p.2 fs
    (p.1 ++ q.1, q.2)

/-- `Cloud::store_other` overloaded for `std::vector<Function<T,NDIM>>`
(cloud.h lines 401-410): store the length as a `std::size_t` leaf, then each
element. -/
def store_funcvec (s : CloudState) (fs : List MFunction) : recordlistT × CloudState :=
  let p := store_other s (.vsize fs.length)
  let q := storeElems p.2 fs
  (p.1 ++ q.1, q.2)

/-- Leaf dispatch of `Cloud::store`: C++ overload resolution sends
`std::vector<Function>` to its dedicated `store_other` overload and every
other leaf to the generic one. -/
def storeLeaf (s : CloudState) : CVal → recordlistT × CloudState
  | .vfuncvec fs => store_funcvec s fs
  | v => store_other s v

/-- The fold of `Cloud::store_tuple` (cloud.h lines 423-434): store each
element in declaration order, concatenating the record lists. -/
def storeList : CloudState → List CVal → recordlistT × CloudState
  | s, [] => ([], s)
  | s, v :: vs =>
    let p := storeLeaf s v
    let q := storeList p.2 vs
    (p.1 ++ q.1, q.2)

/-- `Cloud::store` (cloud.h lines 192-203): dispatch on `is_tuple`, returning
the accumulated record list (the end-of-store fence has no state effect in
the model). -/
def store (s : CloudState) : CompVal → recordlistT × CloudState
  | .leaf v => storeLeaf s v
  | .tup vs => storeList s vs

/-- `Cloud::clear_cache`: drop the cache and the ledger, zero the cache
counters (the fence has no state effect). -/
def clear_cache (s : CloudState) : CloudState :=
  { s with cached_objects := [], cache_stores := 0, cache_reads := 0
         , local_list_of_container_keys := [] }

/-- The counter/ledger part of `Cloud::clear_timings` (the wall-clock timers
are not modelled). -/
def clear_timings (s : CloudState) : CloudState :=
  { s with cache_stores := 0, cache_reads := 0
         , local_list_of_container_keys := [] }

/-- The flattening of a storable value into the sequence of leaf values that
`store` passes to the generic `store_other`, in order: a function vector
contributes its length leaf followed by its element leaves; a tuple
contributes its members' flattenings in declaration order. -/
def flattenLeaf : CVal → List CVal
  | .vfuncvec fs => .vsize fs.length :: fs.map .vfunc
  | v => [v]

/-- Flattening of a composite value (leaf or flat tuple). -/
def flattenComp : CompVal → List CVal
  | .leaf v => flattenLeaf v
  | .tup vs => (vs.map flattenLeaf).flatten

/-- Sequential composition of the generic `store_other` over a leaf
sequence; `store` is equal to this fold over the flattening. -/
def storeFold : CloudState → List CVal → CloudState
  | s, [] => s
  | s, v :: vs => storeFold (store_other s v).2 vs

/-- The error taxonomy of a failing load (spec §7): `popEmpty` models the
unguarded `list.front()` on an empty record list, `cacheRequiredMiss` the
failed `MADNESS_CHECK(is_cached(record))`, `typeMismatch` the failed
`std::get_if` / blob-header check, `missingRecord` the hard failure on an
unknown container record. -/
inductive LoadErr where
  | popEmpty | cacheRequiredMiss | typeMismatch | missingRecord
deriving DecidableEq, Repr

/-- `Cloud::load_from_cache` (cloud.h lines 323-330): count a cache read on
rank 0, then `std::get_if<T>` on the cached variant, failing hard when the
cached alternative is not `T`.  (The `none` branch models the unguarded
`find(record)->second` dereference; it is unreachable because the caller has
checked `is_cached`.) -/
def load_from_cache (s : CloudState) (t : LType) (r : keyT) :
    Except LoadErr (CVal × CloudState) :=
  match lookupR s.cached_objects r with
  | some w => if typeOfL w = t then .ok (w, bumpReads s) else .error .typeMismatch
  | none => .error .typeMismatch

/-- `Cloud::load_other` (cloud.h lines 385-398): pop one record; under
`force_load_from_cache` a cache miss fails hard; on a cache hit return the
cached value; otherwise fetch the blob from the container, deserialize it
(checking the requested type), insert it into the cache and return it. -/
def load_other (s : CloudState) (t : LType) (rl : recordlistT) :
    Except LoadErr (CVal × recordlistT × CloudState) :=
  match pop_front_and_return rl with
  | none => .error .popEmpty
  | some (r, rest) =>
    if s.force_load_from_cache && !(is_cached s r) then .error .cacheRequiredMiss
    else if is_cached s r then
      match load_from_cache s t r with
      | .error e => .error e
      | .ok (w, s₁) => .ok (w, rest, s₁)
    else
      match lookupR s.container r with
      | none => .error .missingRecord
      | some b =>
        if typeOfL b = t then
          .ok (b, rest, { s with cached_objects := insertR s.cached_objects r b })
        else .error .typeMismatch

/-- The element loop of `Cloud::load_madness_function_vector` (cloud.h lines
412-420): load `n` functions one by one.  The loaded size directs the
recursion; a non-`Function` result cannot occur because `load_other` checks
the requested type. -/
def loadFuncElems : Nat → CloudState → recordlistT →
    Except LoadErr (List MFunction × recordlistT × CloudState)
  | 0, s, rl => .ok ([], rl, s)
  | n + 1, s, rl =>
    match load_other s .funcT rl with
    | .error e => .error e
    | .ok (.vfunc f, rl₁, s₁) =>
      match loadFuncElems n s₁ rl₁ with
      | .error e => .error e
      | .ok (fs, rl₂, s₂) => .ok (f :: fs, rl₂, s₂)
    | .ok (_, _, _) => .error .typeMismatch

/-- `Cloud::load_madness_function_vector`: load the length as `std::size_t`,
then that many elements. -/
def load_funcvec (s : CloudState) (rl : recordlistT) :
    Except LoadErr (CVal × recordlistT × CloudState) :=
  match load_other s .sizeT rl with
  | .error e => .error e
  | .ok (.vsize n, rl₁, s₁) =>
    match loadFuncElems n s₁ rl₁ with
    | .error e => .error e
    | .ok (fs, rl₂, s₂) => .ok (.vfuncvec fs, rl₂, s₂)
  | .ok (_, _, _) => .error .typeMismatch

/-- `Cloud::load_internal` (cloud.h lines 332-341): dispatch function vectors
to `load_madness_function_vector`, everything else to `load_other`. -/
def load_internal (s : CloudState) (t : LType) (rl : recordlistT) :
    Except LoadErr (CVal × recordlistT × CloudState) :=
  match t with
  | .funcVecT => load_funcvec s rl
  | t => load_other s t rl

/-- The field fold of `Cloud::load_tuple` (cloud.h lines 436-444): rebuild
the members left to right through `load_internal`. -/
def load_list : List LType → CloudState → recordlistT →
    Except LoadErr (List CVal × recordlistT × CloudState)
  | [], s, rl => .ok ([], rl, s)
  | t :: ts, s, rl =>
    match load_internal s t rl with
    | .error e => .error e
    | .ok (v, rl₁, s₁) =>
      match load_list ts s₁ rl₁ with
      | .error e => .error e
      | .ok (vs, rl₂, s₂) => .ok (v :: vs, rl₂, s₂)

/-- `Cloud::load` (cloud.h lines 181-190): the record list argument is taken
by value (`const recordlistT recordlist`) and only the local copy is
consumed, so the function is a pure map of the list's value; dispatch on
`is_tuple`. -/
def load (s : CloudState) (t : CompType) (rl : recordlistT) :
    Except LoadErr (CompVal × CloudState) :=
  match t with
  | .leafT t =>
    match load_internal s t rl with
    | .error e => .error e
    | .ok (v, _, s₁) => .ok (.leaf v, s₁)
  | .tupT ts =>
    match load_list ts s rl with
    | .error e => .error e
    | .ok (vs, _, s₁) => .ok (.tup vs, s₁)

@[simp] lemma bumpStores_container (s : CloudState) : (bumpStores s).container = s.container := by
  unfold bumpStores; split <;> rfl

@[simp] lemma bumpStores_cached (s : CloudState) :
    (bumpStores s).cached_objects = s.cached_objects := by
  unfold bumpStores; split <;> rfl

@[simp] lemma bumpStores_ledger (s : CloudState) :
    (bumpStores s).local_list_of_container_keys = s.local_list_of_container_keys := by
  unfold bumpStores; split <;> rfl

@[simp] lemma bumpStores_rank (s : CloudState) : (bumpStores s).rank = s.rank := by
  unfold bumpStores; split <;> rfl

@[simp] lemma bumpStores_force (s : CloudState) :
    (bumpStores s).force_load_from_cache = s.force_load_from_cache := by
  unfold bumpStores; split <;> rfl

@[simp] lemma bumpReads_container (s : CloudState) : (bumpReads s).container = s.container := by
  unfold bumpReads; split <;> rfl

@[simp] lemma bumpReads_cached (s : CloudState) :
    (bumpReads s).cached_objects = s.cached_objects := by
  unfold bumpReads; split <;> rfl

@[simp] lemma bumpReads_ledger (s : CloudState) :
    (bumpReads s).local_list_of_container_keys = s.local_list_of_container_keys := by
  unfold bumpReads; split <;> rfl

@[simp] lemma bumpReads_rank (s : CloudState) : (bumpReads s).rank = s.rank := by
  unfold bumpReads; split <;> rfl

@[simp] lemma bumpReads_force (s : CloudState) :
    (bumpReads s).force_load_from_cache = s.force_load_from_cache := by
  unfold bumpReads; split <;> rfl

@[simp] lemma lookupR_insertR_self {α : Type} (xs : List (keyT × α)) (k : keyT) (v : α) :
    lookupR (insertR xs k v) k = some v := by
  simp [insertR, lookupR]

lemma lookupR_insertR_ne {α : Type} (xs : List (keyT × α)) (k : keyT) (v : α) (k' : keyT)
    (h : k ≠ k') : lookupR (insertR xs k v) k' = lookupR xs k' := by
  simp [insertR, lookupR, h]

@[simp] lemma store_other_fst (s : CloudState) (v : CVal) :
    (store_other s v).1 = [compute_record v] := by
  unfold store_other; split <;> rfl

lemma store_other_snd (s : CloudState) (v : CVal) :
    (store_other s v).2 =
      if is_in_container s (compute_record v) then bumpStores s
      else writeBlob s (compute_record v) v := by
  unfold store_other; split <;> simp_all

@[simp] lemma store_other_cached (s : CloudState) (v : CVal) :
    (store_other s v).2.cached_objects = s.cached_objects := by
  rw [store_other_snd]; split <;> simp [writeBlob]

@[simp] lemma store_other_rank (s : CloudState) (v : CVal) :
    (store_other s v).2.rank = s.rank := by
  rw [store_other_snd]; split <;> simp [writeBlob]

@[simp] lemma store_other_force (s : CloudState) (v : CVal) :
    (store_other s v).2.force_load_from_cache = s.force_load_from_cache := by
  rw [store_other_snd]; split <;> simp [writeBlob]

lemma storeFold_append (l₁ l₂ : List CVal) : ∀ s : CloudState,
    storeFold s (l₁ ++ l₂) = storeFold (storeFold s l₁) l₂ := by
  induction l₁ with
  | nil => intro s; rfl
  | cons v vs ih => intro s; simp [storeFold, ih]

@[simp] lemma storeFold_cached (ls : List CVal) : ∀ s : CloudState,
    (storeFold s ls).cached_objects = s.cached_objects := by
  induction ls with
  | nil => intro s; rfl
  | cons v vs ih => intro s; simp [storeFold, ih]

@[simp] lemma storeFold_rank (ls : List CVal) : ∀ s : CloudState,
    (storeFold s ls).rank = s.rank := by
  induction ls with
  | nil => intro s; rfl
  | cons v vs ih => intro s; simp [storeFold, ih]

@[simp] lemma storeFold_force (ls : List CVal) : ∀ s : CloudState,
    (storeFold s ls).force_load_from_cache = s.force_load_from_cache := by
  induction ls with
  | nil => intro s; rfl
  | cons v vs ih => intro s; simp [storeFold, ih]

lemma storeElems_eq (fs : List MFunction) : ∀ s : CloudState,
    storeElems s fs =
      ((fs.map CVal.vfunc).map compute_record, storeFold s (fs.map CVal.vfunc)) := by
  induction fs with
  | nil => intro s; rfl
  | cons f fs ih => intro s; simp [storeElems, storeFold, ih]

lemma storeLeaf_eq (s : CloudState) (v : CVal) :
    storeLeaf s v = ((flattenLeaf v).map compute_record, storeFold s (flattenLeaf v)) := by
  cases v with
  | vfuncvec fs =>
    simp [storeLeaf, store_funcvec, flattenLeaf, storeElems_eq, storeFold]
  | vsize n => simp [storeLeaf, flattenLeaf, storeFold, Prod.ext_iff]
  | vint i => simp [storeLeaf, flattenLeaf, storeFold, Prod.ext_iff]
  | vlong i => simp [storeLeaf, flattenLeaf, storeFold, Prod.ext_iff]
  | vdouble d => simp [storeLeaf, flattenLeaf, storeFold, Prod.ext_iff]
  | vvecd xs => simp [storeLeaf, flattenLeaf, storeFold, Prod.ext_iff]
  | vtensor t => simp [storeLeaf, flattenLeaf, storeFold, Prod.ext_iff]
  | vfunc f => simp [storeLeaf, flattenLeaf, storeFold, Prod.ext_iff]
  | vimplptr i => simp [storeLeaf, flattenLeaf, storeFold, Prod.ext_iff]
  | vimplptrvec ids => simp [storeLeaf, flattenLeaf, storeFold, Prod.ext_iff]

lemma storeList_eq (vs : List CVal) : ∀ s : CloudState,
    storeList s vs =
      (((vs.map flattenLeaf).flatten).map compute_record,
        storeFold s ((vs.map flattenLeaf).flatten)) := by
  induction vs with
  | nil => intro s; rfl
  | cons v vs ih =>
    intro s
    simp [storeList, storeLeaf_eq, ih, storeFold_append]

/-- Structure of `store`: the returned record list is the map of
`compute_record` over the flattening of the value, and the state effect is
the sequential fold of the generic `store_other` over those leaves. -/
lemma store_eq (s : CloudState) (v : CompVal) :
    store s v = ((flattenComp v).map compute_record, storeFold s (flattenComp v)) := by
  cases v with
  | leaf v => simpa [store, flattenComp] using storeLeaf_eq s v
  | tup vs => simpa [store, flattenComp] using storeList_eq vs s

lemma bumpStores_stores (s : CloudState) :
    (bumpStores s).cache_stores =
      (if s.rank = 0 then s.cache_stores + 1 else s.cache_stores) := by
  unfold bumpStores; split <;> simp

@[simp] lemma bumpStores_reads (s : CloudState) :
    (bumpStores s).cache_reads = s.cache_reads := by
  unfold bumpStores; split <;> rfl

lemma store_other_present (s : CloudState) (v : CVal)
    (h : is_in_container s (compute_record v)) : (store_other s v).2 = bumpStores s := by
  rw [store_other_snd, if_pos h]

lemma store_other_ledger_mono (s : CloudState) (v : CVal) (k : keyT)
    (h : k ∈ s.local_list_of_container_keys) :
    k ∈ (store_other s v).2.local_list_of_container_keys := by
  rw [store_other_snd]
  split
  · simpa using h
  · simp only [writeBlob, List.mem_append]
    exact Or.inl h

lemma store_other_ledger_self (s : CloudState) (v : CVal) :
    compute_record v ∈ (store_other s v).2.local_list_of_container_keys := by
  rw [store_other_snd]
  by_cases h : is_in_container s (compute_record v)
  · rw [if_pos h]; simpa [is_in_container] using h
  · rw [if_neg h]; simp [writeBlob]

lemma storeFold_ledger_mono (ls : List CVal) : ∀ (s : CloudState) (k : keyT),
    k ∈ s.local_list_of_container_keys →
    k ∈ (storeFold s ls).local_list_of_container_keys := by
  induction ls with
  | nil => intro s k h; exact h
  | cons v vs ih =>
    intro s k h
    exact ih (store_other s v).2 k (store_other_ledger_mono s v k h)

lemma storeFold_ledger_all (ls : List CVal) : ∀ (s : CloudState), ∀ l ∈ ls,
    compute_record l ∈ (storeFold s ls).local_list_of_container_keys := by
  induction ls with
  | nil => intro s l h; cases h
  | cons v vs ih =>
    intro s l h
    rcases List.mem_cons.mp h with rfl | h
    · exact storeFold_ledger_mono vs _ _ (store_other_ledger_self s l)
    · exact ih _ l h

lemma storeFold_all_present (ls : List CVal) : ∀ s : CloudState,
    (∀ l ∈ ls, compute_record l ∈ s.local_list_of_container_keys) →
    (storeFold s ls).container = s.container ∧
    (storeFold s ls).local_list_of_container_keys = s.local_list_of_container_keys := by
  induction ls with
  | nil => intro s _; exact ⟨rfl, rfl⟩
  | cons v vs ih =>
    intro s h
    have hv : is_in_container s (compute_record v) := h v (List.mem_cons_self v vs)
    have hstep : (store_other s v).2 = bumpStores s := store_other_present s v hv
    have ih' := ih (bumpStores s) (by
      intro l hl
      simpa using h l (List.mem_cons_of_mem v hl))
    simp only [storeFold, hstep]
    simpa using ih'

/-- C2: two successive `store`s of the same value return equal record lists
and the second one writes nothing (the byte blob of every record is written
at most once); per leaf, `store_other` writes the blob and appends the record
to the process-local key ledger exactly when the record is not already in the
ledger, and after a `store` every record of the value's flattening is in the
ledger, which is what elides the second write. -/
theorem store_idempotent (s : CloudState) (v : CompVal) (s' : CloudState) (w : CVal) :
    (store ((store s v).2) v).1 = (store s v).1
  ∧ (store ((store s v).2) v).2.container = (store s v).2.container
  ∧ (store ((store s v).2) v).2.local_list_of_container_keys
      = (store s v).2.local_list_of_container_keys
  ∧ (∀ l ∈ flattenComp v, compute_record l ∈ (store s v).2.local_list_of_container_keys)
  ∧ (store_other s' w).2.container =
      (if is_in_container s' (compute_record w) then s'.container
       else insertR s'.container (compute_record w) w)
  ∧ (store_other s' w).2.local_list_of_container_keys =
      (if is_in_container s' (compute_record w) then s'.local_list_of_container_keys
       else s'.local_list_of_container_keys ++ [compute_record w]) := by
  have hall : ∀ l ∈ flattenComp v,
      compute_record l ∈ (store s v).2.local_list_of_container_keys := by
    intro l hl
    rw [store_eq]
    exact storeFold_ledger_all (flattenComp v) s l hl
  have hpres := storeFold_all_present (flattenComp v) (store s v).2 hall
  refine ⟨?_, ?_, ?_, hall, ?_, ?_⟩
  · rw [store_eq, store_eq]
  · rw [store_eq ((store s v).2) v]
    exact hpres.1
  · rw [store_eq ((store s v).2) v]
    exact hpres.2
  · rw [store_other_snd]
    split <;> simp [writeBlob]
  · rw [store_other_snd]
    split <;> simp [writeBlob]

/-- C3: when the record of a stored value is already in the process-local
key ledger, the container write is elided (container and ledger unchanged),
the returned record list is the same as that of a fresh store, and the
"cache stores skipped" counter is incremented exactly on rank 0. -/
theorem store_dedup_counter (s : CloudState) (v : CVal)
    (h : is_in_container s (compute_record v)) :
    (store_other s v).1 = (store_other initState v).1
  ∧ (store_other s v).2.container = s.container
  ∧ (store_other s v).2.local_list_of_container_keys = s.local_list_of_container_keys
  ∧ (store_other s v).2.cache_stores =
      (if s.rank = 0 then s.cache_stores + 1 else s.cache_stores)
  ∧ (store_other s v).2.cache_reads = s.cache_reads := by
  have hp := store_other_present s v h
  refine ⟨by simp, ?_, ?_, ?_, ?_⟩ <;> rw [hp]
  · simp
  · simp
  · exact bumpStores_stores s
  · simp

/-- C7: the record of a value is derived deterministically from its content
by category: a tensor's record is the `double` hash of its norm (hence equal
to the record of the plain scalar `normf()` and shared by any tensor of
equal norm), a distributed-object handle's record is the identity hash of
its globally unique id (independent of its content), a vector's record is a
range hash over its elements in order, and a plain scalar's record is the
hash of its bit pattern. -/
theorem compute_record_by_category (t t' : MTensor) (f g : MFunction) (p : Nat)
    (xs : List Nat) (n : Nat) (i : Int) (l : Int) (d : Nat)
    (hn : t.normf = t'.normf) (hid : f.id = g.id) :
    compute_record (.vtensor t) = hash_value_double t.normf
  ∧ compute_record (.vtensor t) = compute_record (.vdouble t.normf)
  ∧ compute_record (.vtensor t) = compute_record (.vtensor t')
  ∧ compute_record (.vfunc f) = hash_value_id f.id
  ∧ compute_record (.vfunc f) = compute_record (.vfunc g)
  ∧ compute_record (.vimplptr p) = hash_value_id p
  ∧ compute_record (.vvecd xs) = hash_range_doubles xs
  ∧ compute_record (.vsize n) = hash_value_size n
  ∧ compute_record (.vint i) = hash_value_int i
  ∧ compute_record (.vlong l) = hash_value_long l
  ∧ compute_record (.vdouble d) = hash_value_double d := by
  simp [compute_record, hn, hid]

/-- Witness for `compute_record_by_category` at concrete inputs. -/
theorem compute_record_by_category_witness :
    compute_record (.vtensor ⟨[1, 2]⟩) = hash_value_double (MTensor.normf ⟨[1, 2]⟩)
  ∧ compute_record (.vtensor ⟨[1, 2]⟩) = compute_record (.vdouble (MTensor.normf ⟨[1, 2]⟩))
  ∧ compute_record (.vtensor ⟨[1, 2]⟩) = compute_record (.vtensor ⟨[2, 1]⟩)
  ∧ compute_record (.vfunc ⟨5, 7⟩) = hash_value_id 5
  ∧ compute_record (.vfunc ⟨5, 7⟩) = compute_record (.vfunc ⟨5, 9⟩)
  ∧ compute_record (.vimplptr 11) = hash_value_id 11
  ∧ compute_record (.vvecd [3, 4]) = hash_range_doubles [3, 4]
  ∧ compute_record (.vsize 2) = hash_value_size 2
  ∧ compute_record (.vint 3) = hash_value_int 3
  ∧ compute_record (.vlong 4) = hash_value_long 4
  ∧ compute_record (.vdouble 6) = hash_value_double 6 :=
  compute_record_by_category ⟨[1, 2]⟩ ⟨[2, 1]⟩ ⟨5, 7⟩ ⟨5, 9⟩ 11 [3, 4] 2 3 4 6
    (by decide) (by decide)

/-- C5: under `force_load_from_cache`, a load whose front record is not in
the process-local cache fails hard with the cache-required-miss error and
does not fall back to a container fetch. -/
theorem force_load_miss_fails (s : CloudState) (t : LType) (r : keyT) (rest : recordlistT)
    (hf : s.force_load_from_cache = true) (hm : lookupR s.cached_objects r = none) :
    load_other s t (r :: rest) = .error .cacheRequiredMiss := by
  simp [load_other, pop_front_and_return, is_cached, hf, hm]

/-- Witness for `force_load_miss_fails`. -/
theorem force_load_miss_fails_witness :
    load_other { initState with force_load_from_cache := true } .intT [hash_value_int 3]
      = .error .cacheRequiredMiss :=
  force_load_miss_fails { initState with force_load_from_cache := true } .intT
    (hash_value_int 3) [] rfl rfl

/-- C6: record-list sizes follow the recursion rules: a vector of `N`
function handles yields `N + 1` records (one length record then one per
element, so the zero-length vector yields exactly one record), the empty
tuple yields the empty record list, and a tuple's record list is the
concatenation of its members' record lists in declaration order. -/
theorem store_recordlist_size (s : CloudState) (fs : List MFunction) (vs : List CVal) :
    (store s (.leaf (.vfuncvec fs))).1.length = fs.length + 1
  ∧ (store s (.leaf (.vfuncvec []))).1.length = 1
  ∧ (store s (.tup [])).1 = []
  ∧ (store s (.tup vs)).1 = (vs.map (fun v => (store s (.leaf v)).1)).flatten := by
  refine ⟨?_, ?_, ?_, ?_⟩
  · simp [store_eq, flattenComp, flattenLeaf]
  · simp [store_eq, flattenComp, flattenLeaf]
  · simp [store_eq, flattenComp]
  · simp [store_eq, flattenComp, List.map_map, Function.comp_def]

lemma load_from_cache_error (s : CloudState) (t : LType) (r : keyT) (e : LoadErr)
    (h : load_from_cache s t r = .error e) : e = .typeMismatch := by
  rcases hm : lookupR s.cached_objects r with _ | w <;>
    simp only [load_from_cache, hm] at h
  · simpa using h.symm
  · by_cases ht : typeOfL w = t
    · rw [if_pos ht] at h; simp at h
    · rw [if_neg ht] at h; simpa using h.symm

/-- C4: for a record present in the subworld cache, a load with
`force_load_from_cache` set returns the same value as a load with it unset
(both take the cache-hit path); moreover, when the container holds the blob
that deserializes to the cached value, the cache hit and the
fetch-then-deserialize of an uncached load return the same value. -/
theorem load_cache_hit_agrees (s : CloudState) (t : LType) (r : keyT) (rest : recordlistT)
    (w : CVal) (hc : lookupR s.cached_objects r = some w) :
    Except.map (fun x => x.1)
        (load_other { s with force_load_from_cache := true } t (r :: rest))
      = Except.map (fun x => x.1)
        (load_other { s with force_load_from_cache := false } t (r :: rest))
  ∧ (lookupR s.container r = some w →
      Except.map (fun x => x.1)
          (load_other { s with force_load_from_cache := false } t (r :: rest))
        = Except.map (fun x => x.1)
          (load_other { s with cached_objects := [], force_load_from_cache := false } t
              (r :: rest))) := by
  constructor
  · simp only [load_other, pop_front_and_return, is_cached, hc, load_from_cache]
    by_cases ht : typeOfL w = t <;> simp [ht, Except.map]
  · intro hcon
    simp only [load_other, pop_front_and_return, is_cached, hc, load_from_cache, lookupR]
    by_cases ht : typeOfL w = t <;> simp [ht, hcon, Except.map]

/-- A concrete state whose container and cache both hold the integer 3 at
its record, used to witness the cache-hit agreement. -/
def cacheHitState : CloudState :=
  { container := [(hash_value_int 3, CVal.vint 3)]
  , cached_objects := [(hash_value_int 3, CVal.vint 3)]
  , local_list_of_container_keys := [hash_value_int 3]
  , cache_stores := 0, cache_reads := 0, rank := 0, force_load_from_cache := false }

/-- Witness for `load_cache_hit_agrees`. -/
theorem load_cache_hit_agrees_witness :
    (Except.map (fun x => x.1)
        (load_other { cacheHitState with force_load_from_cache := true } .intT
          [hash_value_int 3])
      = Except.map (fun x => x.1)
        (load_other { cacheHitState with force_load_from_cache := false } .intT
          [hash_value_int 3]))
  ∧ (Except.map (fun x => x.1)
        (load_other { cacheHitState with force_load_from_cache := false } .intT
          [hash_value_int 3])
      = Except.map (fun x => x.1)
        (load_other
          { cacheHitState with cached_objects := [], force_load_from_cache := false }
          .intT [hash_value_int 3])) :=
  ⟨(load_cache_hit_agrees cacheHitState .intT (hash_value_int 3) [] (.vint 3) rfl).1,
   (load_cache_hit_agrees cacheHitState .intT (hash_value_int 3) [] (.vint 3) rfl).2 rfl⟩

/-- State evolution along loads: the container, the ledger, the mode bit and
the rank are unchanged and the cache only grows (every cached binding is
preserved). -/
def SameStore (s s' : CloudState) : Prop :=
  s'.container = s.container
  ∧ s'.local_list_of_container_keys = s.local_list_of_container_keys
  ∧ s'.force_load_from_cache = s.force_load_from_cache
  ∧ s'.rank = s.rank
  ∧ ∀ (k : keyT) (w : CVal), lookupR s.cached_objects k = some w →
      lookupR s'.cached_objects k = some w

lemma sameStore_refl (s : CloudState) : SameStore s s :=
  ⟨rfl, rfl, rfl, rfl, fun _ _ h => h⟩

lemma sameStore_trans {s₁ s₂ s₃ : CloudState} (h₁ : SameStore s₁ s₂)
    (h₂ : SameStore s₂ s₃) : SameStore s₁ s₃ :=
  ⟨h₂.1.trans h₁.1, h₂.2.1.trans h₁.2.1, h₂.2.2.1.trans h₁.2.2.1,
   h₂.2.2.2.1.trans h₁.2.2.2.1,
   fun k w h => h₂.2.2.2.2 k w (h₁.2.2.2.2 k w h)⟩

lemma sameStore_bumpReads (s : CloudState) : SameStore s (bumpReads s) := by
  refine ⟨by simp, by simp, by simp, by simp, ?_⟩
  intro k w h
  simpa using h

/-- Analysis of a successful `load_other`: the state evolves by `SameStore`,
the returned value has the requested type, exactly one record is consumed,
and that record is cached with the returned value afterwards. -/
lemma load_other_ok (s : CloudState) (t : LType) (rl : recordlistT) (v : CVal)
    (rl' : recordlistT) (s₁ : CloudState)
    (h : load_other s t rl = .ok (v, rl', s₁)) :
    SameStore s s₁ ∧ typeOfL v = t
  ∧ ∃ r, rl = r :: rl' ∧ lookupR s₁.cached_objects r = some v := by
  cases rl with
  | nil => simp [load_other, pop_front_and_return] at h
  | cons r rest =>
    simp only [load_other, pop_front_and_return] at h
    by_cases hforce : s.force_load_from_cache && !(is_cached s r)
    · rw [if_pos hforce] at h; cases h
    · rw [if_neg hforce] at h
      by_cases hcached : is_cached s r
      · rw [if_pos hcached] at h
        rcases hlc : load_from_cache s t r with e | ⟨w, sa⟩ <;> rw [hlc] at h
        · cases h
        · cases h
          rcases hm : lookupR s.cached_objects r with _ | u <;>
            simp only [load_from_cache, hm] at hlc
          · cases hlc
          · by_cases ht : typeOfL u = t
            · rw [if_pos ht] at hlc
              cases hlc
              refine ⟨sameStore_bumpReads s, ht, r, rfl, ?_⟩
              simpa using hm
            · rw [if_neg ht] at hlc; cases hlc
      · rw [if_neg hcached] at h
        rcases hm : lookupR s.container r with _ | b <;> simp only [hm] at h
        · cases h
        · by_cases ht : typeOfL b = t
          · rw [if_pos ht] at h
            cases h
            have hnone : lookupR s.cached_objects r = none := by
              unfold is_cached at hcached
              simpa using hcached
            refine ⟨⟨rfl, rfl, rfl, rfl, ?_⟩, ht, r, rfl, by simp⟩
            intro k w hw
            have hk : r ≠ k := by
              intro he; rw [he] at hnone; rw [hnone] at hw; cases hw
            simpa [lookupR_insertR_ne _ _ _ _ hk] using hw
          · rw [if_neg ht] at h; cases h

/-- Replay of `load_other` from any state that caches the front record with a
value of the requested type: the load is a pure cache hit. -/
lemma load_other_replay (s₂ : CloudState) (t : LType) (r : keyT) (rest : recordlistT)
    (v : CVal) (hc : lookupR s₂.cached_objects r = some v) (ht : typeOfL v = t) :
    load_other s₂ t (r :: rest) = .ok (v, rest, bumpReads s₂) := by
  simp [load_other, pop_front_and_return, is_cached, hc, load_from_cache, ht]

/-- Replay form of `load_other`: a successful load can be repeated from any
cache-monotone extension of its final state, returning the same value. -/
lemma load_other_replay_full (s : CloudState) (t : LType) (rl : recordlistT)
    (v : CVal) (rl' : recordlistT) (s₁ : CloudState)
    (h : load_other s t rl = .ok (v, rl', s₁)) :
    SameStore s s₁ ∧ ∀ s₂, SameStore s₁ s₂ →
      load_other s₂ t rl = .ok (v, rl', bumpReads s₂) ∧ SameStore s₂ (bumpReads s₂) := by
  obtain ⟨hss, ht, r, rfl, hcache⟩ := load_other_ok s t rl v rl' s₁ h
  refine ⟨hss, ?_⟩
  intro s₂ h₂
  exact ⟨load_other_replay s₂ t r rl' v (h₂.2.2.2.2 r v hcache) ht,
    sameStore_bumpReads s₂⟩

lemma loadFuncElems_replay (n : Nat) : ∀ (s : CloudState) (rl : recordlistT)
    (fs : List MFunction) (rl' : recordlistT) (s₁ : CloudState),
    loadFuncElems n s rl = .ok (fs, rl', s₁) →
    SameStore s s₁ ∧ ∀ s₂, SameStore s₁ s₂ →
      ∃ s₃, loadFuncElems n s₂ rl = .ok (fs, rl', s₃) ∧ SameStore s₂ s₃ := by
  induction n with
  | zero =>
    intro s rl fs rl' s₁ h
    simp only [loadFuncElems] at h
    cases h
    exact ⟨sameStore_refl s, fun s₂ _ => ⟨s₂, rfl, sameStore_refl s₂⟩⟩
  | succ n ih =>
    intro s rl fs rl' s₁ h
    simp only [loadFuncElems] at h
    rcases hlo : load_other s .funcT rl with e | ⟨w, rl₁, sa⟩
    · rw [hlo] at h; cases h
    · cases w <;> simp only [hlo] at h
      case vfunc f =>
        rcases hle : loadFuncElems n sa rl₁ with e | ⟨fs', rl₂, sb⟩ <;>
          simp only [hle] at h
        · cases h
        · cases h
          obtain ⟨h₁, hrepl₁⟩ := load_other_replay_full s .funcT rl (.vfunc f) rl₁ sa hlo
          obtain ⟨h₂, hrepl₂⟩ := ih sa rl₁ fs' rl' s₁ hle
          refine ⟨sameStore_trans h₁ h₂, ?_⟩
          intro s₂ hs₂
          obtain ⟨hlo₂, hb₂⟩ := hrepl₁ s₂ (sameStore_trans h₂ hs₂)
          obtain ⟨s₃, hle₃, hs₃⟩ := hrepl₂ (bumpReads s₂) (sameStore_trans hs₂ hb₂)
          refine ⟨s₃, ?_, sameStore_trans hb₂ hs₃⟩
          simp only [loadFuncElems, hlo₂, hle₃]
      all_goals cases h

lemma load_funcvec_replay (s : CloudState) (rl : recordlistT) (v : CVal)
    (rl' : recordlistT) (s₁ : CloudState)
    (h : load_funcvec s rl = .ok (v, rl', s₁)) :
    SameStore s s₁ ∧ ∀ s₂, SameStore s₁ s₂ →
      ∃ s₃, load_funcvec s₂ rl = .ok (v, rl', s₃) ∧ SameStore s₂ s₃ := by
  simp only [load_funcvec] at h
  rcases hlo : load_other s .sizeT rl with e | ⟨w, rl₁, sa⟩
  · rw [hlo] at h; cases h
  · cases w <;> simp only [hlo] at h
    case vsize n =>
      rcases hle : loadFuncElems n sa rl₁ with e | ⟨fs, rl₂, sb⟩ <;>
        simp only [hle] at h
      · cases h
      · cases h
        obtain ⟨h₁, hrepl₁⟩ := load_other_replay_full s .sizeT rl (.vsize n) rl₁ sa hlo
        obtain ⟨h₂, hrepl₂⟩ := loadFuncElems_replay n sa rl₁ fs rl' s₁ hle
        refine ⟨sameStore_trans h₁ h₂, ?_⟩
        intro s₂ hs₂
        obtain ⟨hlo₂, hb₂⟩ := hrepl₁ s₂ (sameStore_trans h₂ hs₂)
        obtain ⟨s₃, hle₃, hs₃⟩ := hrepl₂ (bumpReads s₂) (sameStore_trans hs₂ hb₂)
        refine ⟨s₃, ?_, sameStore_trans hb₂ hs₃⟩
        simp only [load_funcvec, hlo₂, hle₃]
    all_goals cases h

lemma load_internal_replay (t : LType) (s : CloudState) (rl : recordlistT) (v : CVal)
    (rl' : recordlistT) (s₁ : CloudState)
    (h : load_internal s t rl = .ok (v, rl', s₁)) :
    SameStore s s₁ ∧ ∀ s₂, SameStore s₁ s₂ →
      ∃ s₃, load_internal s₂ t rl = .ok (v, rl', s₃) ∧ SameStore s₂ s₃ := by
  cases t with
  | funcVecT => exact load_funcvec_replay s rl v rl' s₁ h
  | sizeT =>
    obtain ⟨h₁, hrepl⟩ := load_other_replay_full s _ rl v rl' s₁ h
    exact ⟨h₁, fun s₂ hs₂ => ⟨bumpReads s₂, (hrepl s₂ hs₂).1, (hrepl s₂ hs₂).2⟩⟩
  | intT =>
    obtain ⟨h₁, hrepl⟩ := load_other_replay_full s _ rl v rl' s₁ h
    exact ⟨h₁, fun s₂ hs₂ => ⟨bumpReads s₂, (hrepl s₂ hs₂).1, (hrepl s₂ hs₂).2⟩⟩
  | longT =>
    obtain ⟨h₁, hrepl⟩ := load_other_replay_full s _ rl v rl' s₁ h
    exact ⟨h₁, fun s₂ hs₂ => ⟨bumpReads s₂, (hrepl s₂ hs₂).1, (hrepl s₂ hs₂).2⟩⟩
  | doubleT =>
    obtain ⟨h₁, hrepl⟩ := load_other_replay_full s _ rl v rl' s₁ h
    exact ⟨h₁, fun s₂ hs₂ => ⟨bumpReads s₂, (hrepl s₂ hs₂).1, (hrepl s₂ hs₂).2⟩⟩
  | vecDoubleT =>
    obtain ⟨h₁, hrepl⟩ := load_other_replay_full s _ rl v rl' s₁ h
    exact ⟨h₁, fun s₂ hs₂ => ⟨bumpReads s₂, (hrepl s₂ hs₂).1, (hrepl s₂ hs₂).2⟩⟩
  | tensorT =>
    obtain ⟨h₁, hrepl⟩ := load_other_replay_full s _ rl v rl' s₁ h
    exact ⟨h₁, fun s₂ hs₂ => ⟨bumpReads s₂, (hrepl s₂ hs₂).1, (hrepl s₂ hs₂).2⟩⟩
  | funcT =>
    obtain ⟨h₁, hrepl⟩ := load_other_replay_full s _ rl v rl' s₁ h
    exact ⟨h₁, fun s₂ hs₂ => ⟨bumpReads s₂, (hrepl s₂ hs₂).1, (hrepl s₂ hs₂).2⟩⟩
  | implPtrT =>
    obtain ⟨h₁, hrepl⟩ := load_other_replay_full s _ rl v rl' s₁ h
    exact ⟨h₁, fun s₂ hs₂ => ⟨bumpReads s₂, (hrepl s₂ hs₂).1, (hrepl s₂ hs₂).2⟩⟩
  | implPtrVecT =>
    obtain ⟨h₁, hrepl⟩ := load_other_replay_full s _ rl v rl' s₁ h
    exact ⟨h₁, fun s₂ hs₂ => ⟨bumpReads s₂, (hrepl s₂ hs₂).1, (hrepl s₂ hs₂).2⟩⟩

lemma load_list_replay (ts : List LType) : ∀ (s : CloudState) (rl : recordlistT)
    (vs : List CVal) (rl' : recordlistT) (s₁ : CloudState),
    load_list ts s rl = .ok (vs, rl', s₁) →
    SameStore s s₁ ∧ ∀ s₂, SameStore s₁ s₂ →
      ∃ s₃, load_list ts s₂ rl = .ok (vs, rl', s₃) ∧ SameStore s₂ s₃ := by
  induction ts with
  | nil =>
    intro s rl vs rl' s₁ h
    simp only [load_list] at h
    cases h
    exact ⟨sameStore_refl s, fun s₂ _ => ⟨s₂, rfl, sameStore_refl s₂⟩⟩
  | cons t ts ih =>
    intro s rl vs rl' s₁ h
    simp only [load_list] at h
    rcases hli : load_internal s t rl with e | ⟨v, rl₁, sa⟩ <;> simp only [hli] at h
    · cases h
    · rcases hll : load_list ts sa rl₁ with e | ⟨ws, rl₂, sb⟩ <;> simp only [hll] at h
      · cases h
      · cases h
        obtain ⟨h₁, hrepl₁⟩ := load_internal_replay t s rl v rl₁ sa hli
        obtain ⟨h₂, hrepl₂⟩ := ih sa rl₁ ws rl' s₁ hll
        refine ⟨sameStore_trans h₁ h₂, ?_⟩
        intro s₂ hs₂
        obtain ⟨s₃, hli₂, hb₂⟩ := hrepl₁ s₂ (sameStore_trans h₂ hs₂)
        obtain ⟨s₄, hll₃, hs₄⟩ := hrepl₂ s₃ (sameStore_trans hs₂ hb₂)
        refine ⟨s₄, ?_, sameStore_trans hb₂ hs₄⟩
        simp only [load_list, hli₂, hll₃]

/-- C9: `Cloud::load` takes its record list by value and never mutates the
caller's list (in the embedding `load` is a pure function of the list value,
so the list passed in is returned to the caller unchanged by construction);
consequently the same record list can be passed to `load` repeatedly: a
successful load only grows the cache (`SameStore`), and loading again from
the resulting state yields the same value, in a state from which the same
theorem applies again for every further repetition. -/
theorem load_repeatable (s : CloudState) (t : CompType) (rl : recordlistT)
    (v : CompVal) (s₁ : CloudState) (h : load s t rl = .ok (v, s₁)) :
    SameStore s s₁ ∧ ∃ s₂, load s₁ t rl = .ok (v, s₂) ∧ SameStore s₁ s₂ := by
  cases t with
  | leafT t =>
    simp only [load] at h ⊢
    rcases hli : load_internal s t rl with e | ⟨w, rlx, sx⟩ <;> rw [hli] at h
    · cases h
    · cases h
      obtain ⟨h₁, hrepl⟩ := load_internal_replay t s rl w rlx s₁ hli
      obtain ⟨s₃, hli₂, hs₃⟩ := hrepl s₁ (sameStore_refl s₁)
      exact ⟨h₁, s₃, by rw [hli₂], hs₃⟩
  | tupT ts =>
    simp only [load] at h ⊢
    rcases hll : load_list ts s rl with e | ⟨ws, rlx, sx⟩ <;> rw [hll] at h
    · cases h
    · cases h
      obtain ⟨h₁, hrepl⟩ := load_list_replay ts s rl ws rlx s₁ hll
      obtain ⟨s₃, hll₂, hs₃⟩ := hrepl s₁ (sameStore_refl s₁)
      exact ⟨h₁, s₃, by rw [hll₂], hs₃⟩

/-- A concrete state whose container holds the integer 3 at its record with
an empty cache, as left by a fresh `store`. -/
def loadWitState : CloudState :=
  { container := [(hash_value_int 3, CVal.vint 3)]
  , cached_objects := []
  , local_list_of_container_keys := [hash_value_int 3]
  , cache_stores := 0, cache_reads := 0, rank := 0, force_load_from_cache := false }

/-- The state after one load of the integer 3 from `loadWitState`: the value
is now cached. -/
def loadWitState₁ : CloudState :=
  { loadWitState with cached_objects := [(hash_value_int 3, CVal.vint 3)] }

/-- Witness for `load_repeatable`. -/
theorem load_repeatable_witness :
    SameStore loadWitState loadWitState₁
  ∧ ∃ s₂, load loadWitState₁ (.leafT .intT) [hash_value_int 3]
        = .ok (.leaf (.vint 3), s₂) ∧ SameStore loadWitState₁ s₂ :=
  load_repeatable loadWitState (.leafT .intT) [hash_value_int 3]
    (.leaf (.vint 3)) loadWitState₁ rfl

/-- Pairwise record-compatibility of a leaf sequence: any two leaves that
share a record are equal.  This is the spec's collision-freedom contract
(§4.6) restricted to the leaves of one composite store; it fails exactly on
the lossy content summaries (e.g. two distinct tensors of equal norm). -/
def RecordCompat (ls : List CVal) : Prop :=
  ∀ a ∈ ls, ∀ b ∈ ls, compute_record a = compute_record b → a = b

instance (ls : List CVal) : Decidable (RecordCompat ls) := by
  unfold RecordCompat; infer_instance

/-- Invariant of the store phase over a fresh cloud: every stored leaf's blob
is in the container at its record, stored leaves' records are in the ledger,
every ledger key is the record of a stored leaf, the cache is empty and
`force_load_from_cache` is off. -/
def StInv (s : CloudState) (done : List CVal) : Prop :=
  (∀ l ∈ done, lookupR s.container (compute_record l) = some l)
  ∧ (∀ l ∈ done, compute_record l ∈ s.local_list_of_container_keys)
  ∧ (∀ k ∈ s.local_list_of_container_keys, ∃ l, l ∈ done ∧ compute_record l = k)
  ∧ s.cached_objects = []
  ∧ s.force_load_from_cache = false

/-- Invariant of the load phase: the container holds every leaf at its
record, the cache holds only leaves at their own records, and
`force_load_from_cache` is off. -/
def LdInv (s : CloudState) (all : List CVal) : Prop :=
  (∀ l ∈ all, lookupR s.container (compute_record l) = some l)
  ∧ (∀ (k : keyT) (w : CVal), lookupR s.cached_objects k = some w →
      w ∈ all ∧ compute_record w = k)
  ∧ s.force_load_from_cache = false

lemma StInv_init : StInv initState [] := by
  refine ⟨?_, ?_, ?_, rfl, rfl⟩ <;> intro l h <;> cases h

lemma store_other_inv (all done : List CVal) (hc : RecordCompat all)
    (hd : ∀ l ∈ done, l ∈ all) (v : CVal) (hv : v ∈ all) (s : CloudState)
    (hs : StInv s done) : StInv (store_other s v).2 (done ++ [v]) := by
  rw [store_other_snd]
  by_cases h : is_in_container s (compute_record v)
  · rw [if_pos h]
    obtain ⟨l', hl', hrec⟩ := hs.2.2.1 (compute_record v) h
    have hveq : l' = v := hc l' (hd l' hl') v hv hrec
    subst hveq
    refine ⟨?_, ?_, ?_, by simpa using hs.2.2.2.1, by simpa using hs.2.2.2.2⟩
    · intro l hl
      rcases List.mem_append.mp hl with hl | hl
      · simpa using hs.1 l hl
      · rcases List.mem_singleton.mp hl with rfl
        simpa using hs.1 _ hl'
    · intro l hl
      rcases List.mem_append.mp hl with hl | hl
      · simpa using hs.2.1 l hl
      · rcases List.mem_singleton.mp hl with rfl
        simpa using h
    · intro k hk
      simp only [bumpStores_ledger] at hk
      obtain ⟨l, hl, hr⟩ := hs.2.2.1 k hk
      exact ⟨l, List.mem_append.mpr (Or.inl hl), hr⟩
  · rw [if_neg h]
    refine ⟨?_, ?_, ?_, hs.2.2.2.1, hs.2.2.2.2⟩
    · intro l hl
      rcases List.mem_append.mp hl with hl | hl
      · have hne : compute_record v ≠ compute_record l := by
          intro he
          exact h (he ▸ hs.2.1 l hl)
        simpa [writeBlob, lookupR_insertR_ne _ _ _ _ hne] using hs.1 l hl
      · rcases List.mem_singleton.mp hl with rfl
        simp [writeBlob]
    · intro l hl
      rcases List.mem_append.mp hl with hl | hl
      · simp [writeBlob]
        exact Or.inl (hs.2.1 l hl)
      · rcases List.mem_singleton.mp hl with rfl
        simp [writeBlob]
    · intro k hk
      simp only [writeBlob, List.mem_append, List.mem_singleton] at hk
      rcases hk with hk | rfl
      · obtain ⟨l, hl, hr⟩ := hs.2.2.1 k hk
        exact ⟨l, List.mem_append.mpr (Or.inl hl), hr⟩
      · exact ⟨v, List.mem_append.mpr (Or.inr (List.mem_singleton.mpr rfl)), rfl⟩

lemma storeFold_inv (all : List CVal) (hc : RecordCompat all) :
    ∀ (ls : List CVal) (s : CloudState) (done : List CVal),
    (∀ l ∈ ls, l ∈ all) → (∀ l ∈ done, l ∈ all) → StInv s done →
    StInv (storeFold s ls) (done ++ ls) := by
  intro ls
  induction ls with
  | nil => intro s done _ _ hs; simpa using hs
  | cons v vs ih =>
    intro s done hls hdone hs
    have hv : v ∈ all := hls v (List.mem_cons_self v vs)
    have hstep := store_other_inv all done hc hdone v hv s hs
    have hdone' : ∀ l ∈ done ++ [v], l ∈ all := by
      intro l hl
      rcases List.mem_append.mp hl with hl | hl
      · exact hdone l hl
      · rcases List.mem_singleton.mp hl with rfl; exact hv
    have := ih (store_other s v).2 (done ++ [v])
      (fun l hl => hls l (List.mem_cons_of_mem v hl)) hdone' hstep
    simpa [storeFold, List.append_assoc] using this

lemma StInv_toLdInv (s : CloudState) (all : List CVal) (h : StInv s all) :
    LdInv s all := by
  refine ⟨h.1, ?_, h.2.2.2.2⟩
  intro k w hw
  rw [h.2.2.2.1] at hw
  cases hw

lemma load_other_consistent (all : List CVal) (hc : RecordCompat all) (l : CVal)
    (hl : l ∈ all) (t : LType) (ht : typeOfL l = t) (s : CloudState)
    (hs : LdInv s all) (rest : recordlistT) :
    ∃ s', load_other s t (compute_record l :: rest) = .ok (l, rest, s') ∧ LdInv s' all := by
  rcases hm : lookupR s.cached_objects (compute_record l) with _ | w
  · have hcon := hs.1 l hl
    refine ⟨{ s with cached_objects := insertR s.cached_objects (compute_record l) l },
      ?_, ?_⟩
    · simp [load_other, pop_front_and_return, is_cached, hm, hcon, ht, hs.2.2]
    · refine ⟨by simpa using hs.1, ?_, by simpa using hs.2.2⟩
      intro k w hw
      by_cases hk : compute_record l = k
      · subst hk
        rw [lookupR_insertR_self] at hw
        cases hw
        exact ⟨hl, rfl⟩
      · rw [lookupR_insertR_ne _ _ _ _ hk] at hw
        exact hs.2.1 k w hw
  · obtain ⟨hw_mem, hw_rec⟩ := hs.2.1 (compute_record l) w hm
    have hwl : w = l := hc w hw_mem l hl hw_rec
    subst hwl
    refine ⟨bumpReads s, ?_, ?_⟩
    · simp [load_other, pop_front_and_return, is_cached, hm, load_from_cache, ht, hs.2.2]
    · exact ⟨by simpa using hs.1, by simpa using hs.2.1, by simpa using hs.2.2⟩

lemma loadFuncElems_consistent (all : List CVal) (hc : RecordCompat all) :
    ∀ (fs : List MFunction) (s : CloudState) (rest : recordlistT),
    (∀ f ∈ fs, CVal.vfunc f ∈ all) → LdInv s all →
    ∃ s', loadFuncElems fs.length s
        ((fs.map fun f => compute_record (.vfunc f)) ++ rest) = .ok (fs, rest, s')
      ∧ LdInv s' all := by
  intro fs
  induction fs with
  | nil => intro s rest _ hs; exact ⟨s, rfl, hs⟩
  | cons f fs ih =>
    intro s rest hmem hs
    obtain ⟨sa, hload, hsa⟩ := load_other_consistent all hc (.vfunc f)
      (hmem f (List.mem_cons_self f fs)) .funcT rfl s hs
      ((fs.map fun g => compute_record (.vfunc g)) ++ rest)
    obtain ⟨s', htail, hs'⟩ := ih sa rest
      (fun g hg => hmem g (List.mem_cons_of_mem f hg)) hsa
    refine ⟨s', ?_, hs'⟩
    simp only [List.length_cons, List.map_cons, List.cons_append, loadFuncElems,
      hload, htail]

lemma load_internal_consistent (all : List CVal) (hc : RecordCompat all) (v : CVal)
    (hv : ∀ l ∈ flattenLeaf v, l ∈ all) (s : CloudState) (hs : LdInv s all)
    (rest : recordlistT) :
    ∃ s', load_internal s (typeOfL v) ((flattenLeaf v).map compute_record ++ rest)
        = .ok (v, rest, s') ∧ LdInv s' all := by
  cases v with
  | vfuncvec fs =>
    have hsize : CVal.vsize fs.length ∈ all := hv _ (by simp [flattenLeaf])
    have helem : ∀ f ∈ fs, CVal.vfunc f ∈ all := by
      intro f hf
      refine hv _ ?_
      simp only [flattenLeaf, List.mem_cons, List.mem_map]
      exact Or.inr ⟨f, hf, rfl⟩
    obtain ⟨sa, hload, hsa⟩ := load_other_consistent all hc (.vsize fs.length) hsize
      .sizeT rfl s hs ((fs.map fun f => compute_record (.vfunc f)) ++ rest)
    obtain ⟨s', htail, hs'⟩ := loadFuncElems_consistent all hc fs sa rest helem hsa
    refine ⟨s', ?_, hs'⟩
    simp only [compute_record] at hload htail
    simp only [flattenLeaf, List.map_cons, List.cons_append, List.map_map,
      Function.comp_def, load_internal, typeOfL, load_funcvec, compute_record,
      hload, htail]
  | vsize n =>
    simpa [load_internal, flattenLeaf] using
      load_other_consistent all hc (.vsize n) (hv _ (by simp [flattenLeaf])) .sizeT
        rfl s hs rest
  | vint i =>
    simpa [load_internal, flattenLeaf] using
      load_other_consistent all hc (.vint i) (hv _ (by simp [flattenLeaf])) .intT
        rfl s hs rest
  | vlong i =>
    simpa [load_internal, flattenLeaf] using
      load_other_consistent all hc (.vlong i) (hv _ (by simp [flattenLeaf])) .longT
        rfl s hs rest
  | vdouble d =>
    simpa [load_internal, flattenLeaf] using
      load_other_consistent all hc (.vdouble d) (hv _ (by simp [flattenLeaf])) .doubleT
        rfl s hs rest
  | vvecd xs =>
    simpa [load_internal, flattenLeaf] using
      load_other_consistent all hc (.vvecd xs) (hv _ (by simp [flattenLeaf])) .vecDoubleT
        rfl s hs rest
  | vtensor tt =>
    simpa [load_internal, flattenLeaf] using
      load_other_consistent all hc (.vtensor tt) (hv _ (by simp [flattenLeaf])) .tensorT
        rfl s hs rest
  | vfunc f =>
    simpa [load_internal, flattenLeaf] using
      load_other_consistent all hc (.vfunc f) (hv _ (by simp [flattenLeaf])) .funcT
        rfl s hs rest
  | vimplptr i =>
    simpa [load_internal, flattenLeaf] using
      load_other_consistent all hc (.vimplptr i) (hv _ (by simp [flattenLeaf])) .implPtrT
        rfl s hs rest
  | vimplptrvec ids =>
    simpa [load_internal, flattenLeaf] using
      load_other_consistent all hc (.vimplptrvec ids) (hv _ (by simp [flattenLeaf]))
        .implPtrVecT rfl s hs rest

lemma load_list_consistent (all : List CVal) (hc : RecordCompat all) :
    ∀ (vs : List CVal) (s : CloudState) (rest : recordlistT),
    (∀ l ∈ (vs.map flattenLeaf).flatten, l ∈ all) → LdInv s all →
    ∃ s', load_list (vs.map typeOfL) s
        (((vs.map flattenLeaf).flatten).map compute_record ++ rest) = .ok (vs, rest, s')
      ∧ LdInv s' all := by
  intro vs
  induction vs with
  | nil => intro s rest _ hs; exact ⟨s, rfl, hs⟩
  | cons v vs ih =>
    intro s rest hmem hs
    have hv : ∀ l ∈ flattenLeaf v, l ∈ all := by
      intro l hl
      refine hmem l ?_
      simp only [List.map_cons, List.flatten_cons, List.mem_append]
      exact Or.inl hl
    obtain ⟨sa, hload, hsa⟩ := load_internal_consistent all hc v hv s hs
      (((vs.map flattenLeaf).flatten).map compute_record ++ rest)
    obtain ⟨s', htail, hs'⟩ := ih sa rest
      (fun l hl => hmem l (by
        simp only [List.map_cons, List.flatten_cons, List.mem_append]
        exact Or.inr hl)) hsa
    refine ⟨s', ?_, hs'⟩
    simp only [List.map_cons, List.flatten_cons, List.map_append, List.append_assoc,
      load_list, hload, htail]

/-- C1 (amended): for every storable value whose flattened leaves are
pairwise record-compatible (no two distinct leaves share a record — the
spec's collision-freedom contract), storing into a fresh cloud and loading
back through the returned record list reconstructs the stored value: the
record list produced by `store`, consumed left to right by `load`, yields a
value equal to the one stored. -/
theorem store_load_roundtrip (v : CompVal) (hc : RecordCompat (flattenComp v)) :
    Except.map (fun p => p.1)
        (load (store initState v).2 (typeOfC v) (store initState v).1) = .ok v := by
  have hstore := store_eq initState v
  have hinv : StInv (store initState v).2 (flattenComp v) := by
    rw [hstore]
    simpa using storeFold_inv (flattenComp v) hc (flattenComp v) initState []
      (fun l hl => hl) (fun l hl => by cases hl) StInv_init
  have hld : LdInv (store initState v).2 (flattenComp v) := StInv_toLdInv _ _ hinv
  cases v with
  | leaf w =>
    obtain ⟨s', hload, _⟩ := load_internal_consistent (flattenComp (.leaf w)) hc w
      (fun l hl => hl) (store initState (.leaf w)).2 hld []
    have hfst : (store initState (.leaf w)).1
        = (flattenLeaf w).map compute_record ++ [] := by
      rw [hstore]; simp [flattenComp]
    simp only [typeOfC, load, hfst, hload, Except.map]
  | tup ws =>
    obtain ⟨s', hload, _⟩ := load_list_consistent (flattenComp (.tup ws)) hc ws
      (store initState (.tup ws)).2 [] (fun l hl => hl) hld
    have hfst : (store initState (.tup ws)).1
        = ((ws.map flattenLeaf).flatten).map compute_record ++ [] := by
      rw [hstore]; simp [flattenComp]
    simp only [typeOfC, load, hfst, hload, Except.map]

/-- Witness for `store_load_roundtrip`: a tuple of an `int`, a function
vector with one handle, and a `double`, round-tripped through a fresh
cloud. -/
theorem store_load_roundtrip_witness :
    RecordCompat (flattenComp (.tup [.vint 3, .vfuncvec [⟨1, 2⟩], .vdouble 6]))
  ∧ Except.map (fun p => p.1)
      (load (store initState (.tup [.vint 3, .vfuncvec [⟨1, 2⟩], .vdouble 6])).2
        (typeOfC (.tup [.vint 3, .vfuncvec [⟨1, 2⟩], .vdouble 6]))
        (store initState (.tup [.vint 3, .vfuncvec [⟨1, 2⟩], .vdouble 6])).1)
    = .ok (.tup [.vint 3, .vfuncvec [⟨1, 2⟩], .vdouble 6]) :=
  ⟨by decide, store_load_roundtrip (.tup [.vint 3, .vfuncvec [⟨1, 2⟩], .vdouble 6])
    (by decide)⟩

/-- C1 counterexample: the claim as stated fails on the code.  The tensors
`⟨[1,2]⟩` and `⟨[2,1]⟩` are distinct but share their norm summary, hence
their record; storing the tuple of both elides the second blob write, and
loading returns the first tensor twice — a value different from the one
stored. -/
theorem store_load_roundtrip_cex :
    Except.map (fun p => p.1)
        (load (store initState (.tup [.vtensor ⟨[1, 2]⟩, .vtensor ⟨[2, 1]⟩])).2
          (typeOfC (.tup [.vtensor ⟨[1, 2]⟩, .vtensor ⟨[2, 1]⟩]))
          (store initState (.tup [.vtensor ⟨[1, 2]⟩, .vtensor ⟨[2, 1]⟩])).1)
      = .ok (.tup [.vtensor ⟨[1, 2]⟩, .vtensor ⟨[1, 2]⟩])
  ∧ CompVal.tup [.vtensor ⟨[1, 2]⟩, .vtensor ⟨[1, 2]⟩]
      ≠ CompVal.tup [.vtensor ⟨[1, 2]⟩, .vtensor ⟨[2, 1]⟩] := by
  exact ⟨by rfl, by decide⟩

/-- Witness for `store_idempotent`. -/
theorem store_idempotent_witness :
    ((store ((store initState (.tup [.vint 3, .vint 3])).2) (.tup [.vint 3, .vint 3])).1
      = (store initState (.tup [.vint 3, .vint 3])).1)
  ∧ ((store ((store initState (.tup [.vint 3, .vint 3])).2)
        (.tup [.vint 3, .vint 3])).2.container
      = (store initState (.tup [.vint 3, .vint 3])).2.container)
  ∧ compute_record (.vint 3)
      ∈ (store initState (.tup [.vint 3, .vint 3])).2.local_list_of_container_keys
  ∧ (store_other initState (.vint 5)).2.container =
      (if is_in_container initState (compute_record (.vint 5)) then initState.container
       else insertR initState.container (compute_record (.vint 5)) (.vint 5)) := by
  obtain ⟨h1, h2, h3, h4, h5, h6⟩ :=
    store_idempotent initState (.tup [.vint 3, .vint 3]) initState (.vint 5)
  exact ⟨h1, h2, h4 (.vint 3) (by decide), h5⟩

/-- Witness for `store_dedup_counter`. -/
theorem store_dedup_counter_witness :
    (store_other loadWitState (.vint 3)).1 = (store_other initState (.vint 3)).1
  ∧ (store_other loadWitState (.vint 3)).2.container = loadWitState.container
  ∧ (store_other loadWitState (.vint 3)).2.local_list_of_container_keys
      = loadWitState.local_list_of_container_keys
  ∧ (store_other loadWitState (.vint 3)).2.cache_stores =
      (if loadWitState.rank = 0 then loadWitState.cache_stores + 1
       else loadWitState.cache_stores)
  ∧ (store_other loadWitState (.vint 3)).2.cache_reads = loadWitState.cache_reads :=
  store_dedup_counter loadWitState (.vint 3) (by decide)

/-- The 64-bit two's-complement wrap of `std::ptrdiff_t` arithmetic. -/
def wrap64 (x : Int) : Int := (x + 2 ^ 63) % 2 ^ 64 - 2 ^ 63

/-- `std::numeric_limits<std::ptrdiff_t>::min()`, the sentinel used by the
member-pointer codec to tag the null pointer. -/
def ptrdiffMin : Int := -(2 ^ 63)

/-- `to_rel_fn_ptr` (archive.h lines 250-268): a free or static member
function pointer is encoded as its `std::ptrdiff_t` offset from the
per-process reference function `fn_ptr_origin()`. -/
def to_rel_fn_ptr (origin p : Int) : Int := wrap64 (p - origin)

/-- `to_abs_fn_ptr` (archive.h lines 327-331): decode a relative function
pointer by adding the local `fn_ptr_origin()` back. -/
def to_abs_fn_ptr (origin rel : Int) : Int := wrap64 (rel + origin)

/-- An Itanium-ABI member function pointer: the function-pointer-or-vtable
word (`result[0]`; odd means virtual) and the `this`-adjustment word
(`result[1]`). -/
structure MemFnPtr where
  ptr : Int
  adj : Int
deriving DecidableEq, Repr

/-- `to_rel_memfn_ptr` (archive.h lines 272-321, `MADNESS_CXX_ABI_GenericItanium`
branch): tag the null pointer by the sentinel adjustment, translate even
(non-virtual) pointers to offsets from `fn_ptr_origin()`, and leave odd
(virtual) pointers untouched. -/
def to_rel_memfn_ptr (origin : Int) (fn : MemFnPtr) : MemFnPtr :=
  if fn.ptr = 0 then { fn with adj := ptrdiffMin }
  else if fn.ptr % 2 = 0 then { fn with ptr := wrap64 (fn.ptr - origin) }
  else fn

/-- `to_abs_memfn_ptr` (archive.h lines 338-367, Itanium branch): undo the
sentinel tagging for null, add `fn_ptr_origin()` back for even (non-virtual)
pointers, leave odd (virtual) pointers untouched. -/
def to_abs_memfn_ptr (origin : Int) (rel : MemFnPtr) : MemFnPtr :=
  if rel.ptr = 0 ∧ rel.adj = ptrdiffMin then { rel with adj := 0 }
  else if rel.ptr % 2 = 0 then { rel with ptr := wrap64 (rel.ptr + origin) }
  else rel

lemma wrap64_eq_self (x : Int) (h1 : -(2 ^ 63) ≤ x) (h2 : x < 2 ^ 63) :
    wrap64 x = x := by
  unfold wrap64; omega

lemma wrap64_add_left (a b : Int) : wrap64 (wrap64 a + b) = wrap64 (a + b) := by
  unfold wrap64; omega

lemma wrap64_parity (x : Int) : wrap64 x % 2 = x % 2 := by
  unfold wrap64; omega

/-- C8: the relative-pointer codec round-trips.  A free or static member
function pointer in the `ptrdiff_t` range (null included) decodes back to
itself after encoding relative to any per-process origin.  An Itanium member
function pointer round-trips by case: a null pointer decodes to the
canonical null `⟨0, 0⟩`, a non-virtual (even, non-null) pointer with a
non-sentinel adjustment decodes to itself (using that `fn_ptr_origin()` is
even), and a virtual (odd) pointer is passed through unchanged, preserving
virtual dispatch. -/
theorem rel_ptr_roundtrip (origin p : Int) (f : MemFnPtr)
    (hp₁ : -(2 ^ 63) ≤ p) (hp₂ : p < 2 ^ 63)
    (hf₁ : -(2 ^ 63) ≤ f.ptr) (hf₂ : f.ptr < 2 ^ 63)
    (hoe : origin % 2 = 0) (hadj : f.adj ≠ ptrdiffMin) :
    to_abs_fn_ptr origin (to_rel_fn_ptr origin p) = p
  ∧ (f.ptr = 0 → to_abs_memfn_ptr origin (to_rel_memfn_ptr origin f) = ⟨0, 0⟩)
  ∧ (f.ptr ≠ 0 → f.ptr % 2 = 0 →
      to_abs_memfn_ptr origin (to_rel_memfn_ptr origin f) = f)
  ∧ (f.ptr % 2 = 1 → to_abs_memfn_ptr origin (to_rel_memfn_ptr origin f) = f) := by
  refine ⟨?_, ?_, ?_, ?_⟩
  · rw [to_rel_fn_ptr, to_abs_fn_ptr, wrap64_add_left]
    rw [show p - origin + origin = p by ring]
    exact wrap64_eq_self p hp₁ hp₂
  · intro h0
    rw [to_rel_memfn_ptr, if_pos h0]
    rw [to_abs_memfn_ptr]
    rw [if_pos ⟨h0, rfl⟩]
    cases f
    simp_all
  · intro hne heven
    rw [to_rel_memfn_ptr, if_neg hne, if_pos heven]
    rw [to_abs_memfn_ptr]
    have hrelp : wrap64 (f.ptr - origin) % 2 = 0 := by
      rw [wrap64_parity]; omega
    rw [if_neg (by simp [hadj])]
    rw [if_pos hrelp, wrap64_add_left]
    rw [show f.ptr - origin + origin = f.ptr by ring]
    rw [wrap64_eq_self f.ptr hf₁ hf₂]
  · intro hodd
    have hne : f.ptr ≠ 0 := by omega
    have hnev : ¬ f.ptr % 2 = 0 := by omega
    rw [to_rel_memfn_ptr, if_neg hne, if_neg hnev]
    rw [to_abs_memfn_ptr, if_neg (by simp [hne]), if_neg hnev]

/-- Witness for `rel_ptr_roundtrip`: origin 100, a free pointer 40, and the
null, non-virtual and virtual member pointers `⟨0,7⟩`, `⟨40,16⟩`, `⟨9,5⟩`. -/
theorem rel_ptr_roundtrip_witness :
    to_abs_fn_ptr 100 (to_rel_fn_ptr 100 40) = 40
  ∧ to_abs_memfn_ptr 100 (to_rel_memfn_ptr 100 ⟨0, 7⟩) = (⟨0, 0⟩ : MemFnPtr)
  ∧ to_abs_memfn_ptr 100 (to_rel_memfn_ptr 100 ⟨40, 16⟩) = (⟨40, 16⟩ : MemFnPtr)
  ∧ to_abs_memfn_ptr 100 (to_rel_memfn_ptr 100 ⟨9, 5⟩) = (⟨9, 5⟩ : MemFnPtr) :=
  ⟨(rel_ptr_roundtrip 100 40 ⟨0, 7⟩ (by norm_num) (by norm_num) (by norm_num)
      (by norm_num) (by norm_num) (by norm_num [ptrdiffMin])).1,
   (rel_ptr_roundtrip 100 40 ⟨0, 7⟩ (by norm_num) (by norm_num) (by norm_num)
      (by norm_num) (by norm_num) (by norm_num [ptrdiffMin])).2.1 rfl,
   (rel_ptr_roundtrip 100 40 ⟨40, 16⟩ (by norm_num) (by norm_num) (by norm_num)
      (by norm_num) (by norm_num) (by norm_num [ptrdiffMin])).2.2.1
      (by norm_num) (by norm_num),
   (rel_ptr_roundtrip 100 40 ⟨9, 5⟩ (by norm_num) (by norm_num) (by norm_num)
      (by norm_num) (by norm_num) (by norm_num [ptrdiffMin])).2.2.2 (by norm_num)⟩

/-- C10: `pop_front_and_return` requires a non-empty list (the totalized pop
returns `none` on the empty list, and `load_other` on an empty record list
hits exactly that branch); whenever the supplied record list is non-empty,
the unguarded-front branch is unreachable: `load_other` never produces the
`popEmpty` outcome. -/
theorem load_pop_precondition (s : CloudState) (t : LType) (rl : recordlistT)
    (h : rl ≠ []) :
    pop_front_and_return ([] : recordlistT) = none
  ∧ load_other s t ([] : recordlistT) = .error .popEmpty
  ∧ (∀ (v : CVal) (rl' : recordlistT) (s₁ : CloudState),
      load_other s t rl = .ok (v, rl', s₁) → rl.length = rl'.length + 1)
  ∧ load_other s t rl ≠ .error .popEmpty := by
  refine ⟨rfl, rfl, ?_, ?_⟩
  · intro v rl' s₁ hok
    obtain ⟨-, -, r, hcons, -⟩ := load_other_ok s t rl v rl' s₁ hok
    rw [hcons]
    simp
  cases rl with
  | nil => cases h rfl
  | cons r rest =>
    simp only [load_other, pop_front_and_return]
    split
    · simp
    · split
      · rcases hlc : load_from_cache s t r with e | p <;> simp [hlc]
        have := load_from_cache_error s t r e hlc
        simp [this]
      · rcases hcc : lookupR s.container r with _ | b <;> simp [hcc]
        split <;> simp

/-- Witness for `load_pop_precondition`. -/
theorem load_pop_precondition_witness :
    pop_front_and_return ([] : recordlistT) = none
  ∧ load_other initState .intT ([] : recordlistT) = .error .popEmpty
  ∧ (∀ (v : CVal) (rl' : recordlistT) (s₁ : CloudState),
      load_other initState .intT [hash_value_int 3] = .ok (v, rl', s₁) →
        ([hash_value_int 3] : recordlistT).length = rl'.length + 1)
  ∧ load_other initState .intT [hash_value_int 3] ≠ .error .popEmpty :=
  load_pop_precondition initState .intT [hash_value_int 3] (by decide)
